import Mathlib

/-!
Shallow embedding of `src/libpartclone.c` (partclone-utils), the random-access
engine for partclone partition images, together with theorems settling the
spec claims.  Machine integers are modelled as `Nat`; every value produced by
the source stays below `2^64`/`2^32` on the inputs considered, and the bitwise
operators `&&&`, `|||`, `^^^`, `>>>` coincide with the C semantics there.
The base image file and all buffers are byte lists; the backend
(`sysdep_posix.c`) is modelled by pure list reads.  The change file
(`changefile.c`) and the headers `partclone.h`/`sysdep.h` are not under
`src/`; the few facts needed from them are modelled from the spec and marked
as such.
-/

namespace Partclone

/-! ## Error codes (errno values used by the source) -/

def EINVAL : Nat := 22
def EIO : Nat := 5
def ENOENT : Nat := 2

/-! ## Lifecycle flag bits, from libpartclone.c lines 29-43 -/

def PC_OPEN : Nat := 0x0001
def PC_CF_OPEN : Nat := 0x0002
def PC_VERIFIED : Nat := 0x0004
def PC_HAVE_CFDEP : Nat := 0x0040
def PC_HAVE_VERDEP : Nat := 0x0080
def PC_HAVE_IVBLOCK : Nat := 0x0100
def PC_CF_VERIFIED : Nat := 0x0200
def PC_CF_INIT : Nat := 0x0400
def PC_VERSION_INIT : Nat := 0x0800
def PC_HEAD_VALID : Nat := 0x1000
def PC_HAVE_PATH : Nat := 0x2000
def PC_HAVE_CF_PATH : Nat := 0x4000
def PC_VALID : Nat := 0x8000
def PC_TOLERANT : Nat := 0x40000
def PC_READ_ONLY : Nat := 0x80000

/-- Flag-test macro PCTX_FLAGS_SET on the flag word (the C macro also
null-checks the context pointer; contexts are always present in this
embedding). -/
def PCTX_FLAGS_SET (flags f : Nat) : Bool :=
  (flags &&& (f ||| PC_VALID)) == (f ||| PC_VALID)

/-- Modelled from the spec: the open-mode enumeration of the missing
sysdep.h, ordered as in `omode2flags` of sysdep_posix.c
(NONE < RO < RW < WO < RW_CREATE); the source compares modes with
`>= SYSDEP_OPEN_RW`. -/
def SYSDEP_OPEN_RO : Nat := 1

def SYSDEP_OPEN_RW : Nat := 2

def SYSDEP_OPEN_WO : Nat := 3

def SYSDEP_OPEN_RWCREAT : Nat := 4

/-- Byte-level read of the base image file: `posix_seek` with
SYSDEP_SEEK_ABSOLUTE always succeeds, `posix_read` then delivers the bytes
available; every call site also compares the returned size with the
requested length, so `some` is returned exactly when the full requested
range is available. -/
def fileRead (file : List Nat) (off len : Nat) : Option (List Nat) :=
  if off + len ≤ file.length then some ((file.drop off).take len) else none

/-! ## Data model -/

/-- Normalized header `pcp->pc_head` (fields as used by the source). -/
structure ImageHead where
  block_size : Nat
  totalblock : Nat
  checksum_size : Nat
  device_size : Nat
  blocks_per_checksum : Nat
  head_size : Nat
deriving Repr, DecidableEq

/-- Modelled from the spec: the parsed V1 on-disk header `pcp->pc_head_v1`
(struct layout in the missing partclone.h): a magic area, a 4-byte version
stamp and the three size fields. -/
structure V1Header where
  magic : List Nat
  version : List Nat
  block_size : Nat
  totalblock : Nat
  device_size : Nat
deriving Repr, DecidableEq

/-- Modelled from the spec: the V1 header magic bytes (IMAGE_MAGIC in the
missing partclone.h). -/
def IMAGE_MAGIC : List Nat := "partclone-image".toList.map Char.toNat

/-- Version stamp of format V1. -/
def VERSION_0001 : List Nat := "0001".toList.map Char.toNat

/-- Trailing bitmap magic, `cmagicstr` in libpartclone.c line 99. -/
def cmagicstr : List Nat := "BiTmAgIc".toList.map Char.toNat

/-- Modelled from the spec: MAGIC_LEN from the missing partclone.h; the spec
fixes the trailing magic as 8 bytes and `cmagicstr` has 8 characters. -/
def MAGIC_LEN : Nat := 8

/-- Modelled from the spec: CRC_SIZE from the missing partclone.h, the 4-byte
checksum unit (`checksum_size = 4` for V1). -/
def CRC_SIZE : Nat := 4

def V1_DEFAULT_FACTOR : Nat := 10

/-- Modelled from the spec: change-file overlay state (changefile.c is not
under src/).  The overlay stores per-block overrides and a cursor. -/
structure CfState where
  blocks : Nat → Option (List Nat)
  cur : Nat

/-- Modelled from the spec: a freshly created overlay holds no overrides. -/
def cfEmpty : CfState := { blocks := fun _ => none, cur := 0 }

/-- Modelled from the spec: `cf_seek` positions the overlay cursor. -/
def cf_seek (cf : CfState) (b : Nat) : CfState := { cf with cur := b }

/-- Modelled from the spec: `cf_readblock` returns the override for the
current block, or the distinguished "no override" status (`none` here). -/
def cf_readblock (cf : CfState) : Option (List Nat) := cf.blocks cf.cur

/-- Modelled from the spec: `cf_writeblock` records the buffer as the
override for the current block. -/
def cf_writeblock (cf : CfState) (buf : List Nat) : CfState :=
  { cf with blocks := fun b => if b = cf.cur then some buf else cf.blocks b }

/-- Per-version state `v1_context_t` (the CRC table is a function of its
index alone and is kept as a separate definition below). -/
structure V1State where
  v1_bitmap : List Nat
  v1_sumcount : List Nat
  v1_nvbcount : Nat
  v1_bitmap_factor : Nat
deriving Repr, DecidableEq

/-- Image context `pc_context_t`.  `base` is the byte content of the base
image file behind the read-only handle `pc_fd`; `pc_hdr_size` stands for
`sizeof(pcp->pc_head_v1)` (partclone.h is not under src/, so the constant
stays abstract); `pc_has_cf_path` models `pc_cf_path != NULL`. -/
structure PcContext where
  pc_flags : Nat
  pc_head : ImageHead
  pc_head_v1 : V1Header
  pc_hdr_size : Nat
  pc_curblock : Nat
  pc_omode : Nat
  v1 : V1State
  pc_cf_handle : Option CfState
  pc_has_cf_path : Bool
  base : List Nat

def PCTX_VALID (c : PcContext) : Bool := PCTX_FLAGS_SET c.pc_flags 0
def PCTX_OPEN (c : PcContext) : Bool := PCTX_FLAGS_SET c.pc_flags PC_OPEN
def PCTX_TOLERANT (c : PcContext) : Bool := PCTX_FLAGS_SET c.pc_flags PC_TOLERANT
def PCTX_READ_ONLY (c : PcContext) : Bool :=
  (c.pc_flags &&& PC_READ_ONLY) == PC_READ_ONLY
def PCTX_VERIFIED (c : PcContext) : Bool :=
  PCTX_FLAGS_SET c.pc_flags (PC_OPEN ||| PC_VERIFIED)
def PCTX_READREADY (c : PcContext) : Bool :=
  PCTX_FLAGS_SET c.pc_flags
    (PC_OPEN ||| PC_VERIFIED ||| PC_HEAD_VALID ||| PC_VERSION_INIT)
def PCTX_CFREADY (c : PcContext) : Bool :=
  PCTX_FLAGS_SET c.pc_flags
    (PC_OPEN ||| PC_VERIFIED ||| PC_HEAD_VALID ||| PC_VERSION_INIT |||
      PC_HAVE_CFDEP ||| PC_CF_VERIFIED)
def PCTX_WRITEABLE (c : PcContext) : Bool :=
  !PCTX_READ_ONLY c && PCTX_READREADY c
def PCTX_WRITEREADY (c : PcContext) : Bool :=
  !PCTX_READ_ONLY c && PCTX_CFREADY c
def PCTX_HAVE_VERDEP (c : PcContext) : Bool :=
  PCTX_FLAGS_SET c.pc_flags PC_HAVE_VERDEP
def PCTX_HAVE_CF_PATH (c : PcContext) : Bool :=
  PCTX_FLAGS_SET c.pc_flags PC_HAVE_CF_PATH && c.pc_has_cf_path

/-! ## CRC (v1_init lines 161-170 and v1_crc32 lines 363-381) -/

/-- One bit-step of the reflected CRC-32 table construction. -/
def crc32TabStep (c : Nat) : Nat :=
  if c % 2 = 1 then (c >>> 1) ^^^ 0xEDB88320 else c >>> 1

/-- Entry `i` of the CRC table: eight `crc32TabStep` rounds applied to `i`. -/
def crcTableEntry (i : Nat) : Nat := crc32TabStep^[8] i

/-- Precalculated table `v1p->v1_crc_tab32`. -/
def v1_crc_tab32 : List Nat := (List.range 256).map crcTableEntry

/-- One loop iteration of `v1_crc32`: the source reads `buf[0]`, never
`buf[s]` (the documented partclone bug kept for compatibility). -/
def v1_crc32_step (tab buf : List Nat) (crc : Nat) : Nat :=
  let c := buf.getD 0 0
  let tmp := crc ^^^ (c &&& 0xff)
  (crc >>> 8) ^^^ tab.getD (tmp &&& 0xff) 0

/-- Function `v1_crc32(v1p, crc, buf, size)`: the step iterated `size`
times. -/
def v1_crc32 (tab : List Nat) (crc : Nat) (buf : List Nat) : Nat → Nat
  | 0 => crc
  | s + 1 => v1_crc32 tab (v1_crc32_step tab buf crc) buf s

/-! ## Counting helpers (mathematical side, used to state the claims) -/

/-- Number of indices `i < n` whose usage-map byte equals 1. -/
def usedCount (bm : List Nat) : Nat → Nat
  | 0 => 0
  | n + 1 => usedCount bm n + (if bm.getD n 0 == 1 then 1 else 0)

/-- Number of indices `p` in `[lo, lo+k)` whose map byte is nonzero - the
test `if (v1p->v1_bitmap[pbn])` performed by `v1_seek`. -/
def truthyCount (bm : List Nat) (lo : Nat) : Nat → Nat
  | 0 => 0
  | k + 1 => truthyCount bm lo k + (if bm.getD (lo + k) 0 ≠ 0 then 1 else 0)

/-! ## precalculate_sumcount (lines 178-225) -/

/-- Loop of `precalculate_sumcount`: `rem` iterations remain, `i` is the loop
index, `nset` the running count, `arr` the malloc'd (initially uninitialized)
`v1_sumcount` array.  Here `i % 2^f = 0` renders `(i & ((1<<f)-1)) == 0` and
`i >>> f` renders `i >> factor`.  Only bytes equal to 1 are counted (the
source's [2011-08] comment: any other value "is not set"). -/
def precalcAux (bm : List Nat) (f : Nat) : Nat → Nat → Nat → List Nat → List Nat
  | 0, _, _, arr => arr
  | rem + 1, i, nset, arr =>
    let arr' := if i % 2 ^ f = 0 then arr.set (i >>> f) nset else arr
    let nset' := if bm.getD i 0 == 1 then nset + 1 else nset
    precalcAux bm f rem (i + 1) nset' arr'

/-- Function `precalculate_sumcount(pcp)`.  `garbage` is the content of the
freshly malloc'd `v1_sumcount` array (`(totalblock >> factor) + 1` entries,
uninitialized).  Also performs the device-size fixup and, when a change-file
handle is present, its verification (`cf_verify` modelled from the spec as
succeeding on a well-formed overlay). -/
def precalculate_sumcount (c : PcContext) (garbage : List Nat) : Nat × PcContext :=
  let sc := precalcAux c.v1.v1_bitmap c.v1.v1_bitmap_factor
      c.pc_head.totalblock 0 0 garbage
  let dsz := c.pc_head.totalblock * c.pc_head.block_size
  let c := { c with
    v1 := { c.v1 with v1_sumcount := sc },
    pc_head := { c.pc_head with device_size := dsz } }
  match c.pc_cf_handle with
  | some _ => (0, { c with pc_flags := c.pc_flags ||| PC_CF_VERIFIED })
  | none => (0, c)

/-- Function `v1_init(pcp)` (lines 124-176).  Allocation is modelled as
succeeding; `existingCf` is the result of `cf_init` on an already-existing
change file (`none`: no usable change file, in which case the source
discards the error and creates one later). -/
def v1_init (c : PcContext) (existingCf : Option CfState) : Nat × PcContext :=
  if !PCTX_VALID c then (EINVAL, c)
  else
    let c := { c with
      pc_flags := c.pc_flags ||| PC_HAVE_VERDEP ||| PC_VERSION_INIT,
      v1 := { v1_bitmap := [], v1_sumcount := [], v1_nvbcount := 0,
              v1_bitmap_factor := V1_DEFAULT_FACTOR } }
    if c.pc_has_cf_path && decide (SYSDEP_OPEN_RW ≤ c.pc_omode) then
      match existingCf with
      | some cf =>
        (0, { c with pc_cf_handle := some cf,
                     pc_flags := c.pc_flags ||| PC_CF_OPEN })
      | none => (0, c)
    else if c.pc_omode < SYSDEP_OPEN_RW then
      (0, { c with pc_flags := c.pc_flags ||| PC_READ_ONLY })
    else (0, c)

/-- Function `v1_verify(pcp)` (lines 233-287).  Reads the usage map (one byte
per block) from just past the V1 header, then the 8 trailing magic bytes; on
full success delegates to `precalculate_sumcount`.  A short read surfaces as
a nonzero error (the posix backend reports errno on a short read and every
call site also compares the returned size).  No branch consults
PC_TOLERANT. -/
def v1_verify (c : PcContext) (garbage : List Nat) : Nat × PcContext :=
  if !PCTX_OPEN c then (EINVAL, c)
  else if c.pc_head_v1.magic ≠ IMAGE_MAGIC then (EINVAL, c)
  else
    let hd : ImageHead := {
      block_size := c.pc_head_v1.block_size,
      totalblock := c.pc_head_v1.totalblock,
      checksum_size := CRC_SIZE,
      device_size := c.pc_head_v1.device_size,
      blocks_per_checksum := 1,
      head_size := c.pc_hdr_size + c.pc_head_v1.totalblock + MAGIC_LEN }
    let c := { c with pc_head := hd,
                      pc_flags := c.pc_flags ||| PC_HEAD_VALID }
    match fileRead c.base c.pc_hdr_size c.pc_head.totalblock with
    | none => ( EIO, c)
    | some bm =>
      let c := { c with v1 := { c.v1 with v1_bitmap := bm } }
      match fileRead c.base (c.pc_hdr_size + c.pc_head.totalblock) MAGIC_LEN with
      | none => ( EIO, c)
      | some magicstr =>
        if magicstr = cmagicstr then precalculate_sumcount c garbage
        else (EINVAL, c)

/-! ## rblock2offset (lines 346-353) and v1_seek (lines 318-341) -/

/-- Physical byte offset of the stored block number `rbnum`. -/
def rblock2offset (h : ImageHead) (rbnum : Nat) : Nat :=
  let offset := h.head_size + rbnum * h.block_size
  if h.blocks_per_checksum ≠ 0 then
    offset + rbnum / h.blocks_per_checksum * h.checksum_size
  else offset

/-- Function `v1_seek(pcp, blockno)`: restart from the sumcount hint at the
enclosing stride boundary (`blockno & ~((1<<factor)-1)`, i.e.
`blockno / 2^f * 2^f`), then walk the residue counting every nonzero map
byte. -/
def v1_seek (c : PcContext) (blockno : Nat) : Nat × PcContext :=
  if !PCTX_HAVE_VERDEP c then (EINVAL, c)
  else
    let f := c.v1.v1_bitmap_factor
    let start := blockno / 2 ^ f * 2 ^ f
    let nvb := c.v1.v1_sumcount.getD (blockno >>> f) 0 +
      truthyCount c.v1.v1_bitmap start (blockno - start)
    let c := { c with v1 := { c.v1 with v1_nvbcount := nvb } }
    match c.pc_cf_handle with
    | some cf => (0, { c with pc_cf_handle := some (cf_seek cf blockno) })
    | none => (0, c)

/-! ## v1_readblock (lines 386-429) -/

/-- Body of the `if (error)` branch of `v1_readblock`: the change file had no
override, so consult the usage map.  Result `some (error, buffer, ctx)`; the
buffer component is meaningful when `error = 0`.  Result `none` means the
source evaluated `v1_bitmap[pc_curblock]` out of bounds - undefined behavior
in C (a byte at or past the end of the `totalblock`-byte allocation).  The
zero-fill path copies `pc_ivblock`, which `partclone_verify` allocated
zeroed.  `v1_nvbcount` is incremented whenever the used-block path reaches
the backend read, even when that read comes back short, error EIO. -/
def v1_readblock_miss (c : PcContext) : Option (Nat × List Nat × PcContext) :=
  match c.v1.v1_bitmap[c.pc_curblock]? with
  | none => none
  | some bv =>
    if bv ≠ 0 then
      let boffs := rblock2offset c.pc_head c.v1.v1_nvbcount
      let c' := { c with v1 := { c.v1 with v1_nvbcount := c.v1.v1_nvbcount + 1 } }
      match fileRead c.base boffs c.pc_head.block_size with
      | some bytes => some (0, bytes, c')
      | none => some ( EIO, [], c')
    else
      some (0, List.replicate c.pc_head.block_size 0, c)

/-- Function `v1_readblock(pcp, buffer)`: first try the change file at the
current block; on an overlay hit return its data, otherwise fall through to
the usage map. -/
def v1_readblock (c : PcContext) : Option (Nat × List Nat × PcContext) :=
  match c.pc_cf_handle with
  | some cf =>
    let cf1 := cf_seek cf c.pc_curblock
    let c1 := { c with pc_cf_handle := some cf1 }
    match cf_readblock cf1 with
    | some buf => some (0, buf, c1)
    | none => v1_readblock_miss c1
  | none => v1_readblock_miss c

/-- Function `v1_writeblock(pcp, buffer)` (lines 451-489).  When the context
is not write-ready the change file is created lazily (`cf_create` modelled
from the spec as producing a fresh empty overlay; the `<image>.cf` name
construction only affects the path string, modelled by `pc_has_cf_path`). -/
def v1_writeblock (c : PcContext) (buf : List Nat) : Nat × PcContext :=
  if !PCTX_HAVE_VERDEP c then (EINVAL, c)
  else
    let c :=
      if !PCTX_WRITEREADY c then
        { c with
          pc_has_cf_path := true,
          pc_cf_handle := some cfEmpty,
          pc_flags := c.pc_flags ||| PC_HAVE_CF_PATH ||| PC_HAVE_CFDEP |||
            PC_CF_VERIFIED }
      else c
    match c.pc_cf_handle with
    | some cf =>
      let cf' := cf_writeblock (cf_seek cf c.pc_curblock) buf
      (0, { c with pc_cf_handle := some cf' })
    | none => (EINVAL, c)

/-! ## Public API (lines 628-896) -/

/-- Result of `partclone_open`: the context plus the mode actually passed to
the backend `sys_open` for the base image (source line 642 passes the
literal SYSDEP_OPEN_RO whatever `omode` is). -/
structure OpenResult where
  backend_mode : Nat
  ctx : PcContext

/-- Function `partclone_open(path, cfpath, omode, sysdep, rpp)` on its
successful path: allocate the zeroed context, open the base file read-only,
duplicate the path strings, record the caller's open mode. -/
def partclone_open (base : List Nat) (hdr : V1Header) (hdrSize : Nat)
    (has_cf_path : Bool) (omode : Nat) : OpenResult :=
  { backend_mode := SYSDEP_OPEN_RO,
    ctx := {
      pc_flags := PC_VALID ||| PC_OPEN ||| PC_HAVE_PATH |||
        (if has_cf_path then PC_HAVE_CF_PATH else 0),
      pc_head := ⟨0, 0, 0, 0, 0, 0⟩,
      pc_head_v1 := hdr,
      pc_hdr_size := hdrSize,
      pc_curblock := 0,
      pc_omode := omode,
      v1 := ⟨[], [], 0, 0⟩,
      pc_cf_handle := none,
      pc_has_cf_path := has_cf_path,
      base := base } }

/-- Function `partclone_tolerant_mode(rp)` (lines 674-681). -/
def partclone_tolerant_mode (c : PcContext) : PcContext :=
  if PCTX_OPEN c then { c with pc_flags := c.pc_flags ||| PC_TOLERANT } else c

/-- Function `partclone_verify(rp)` (lines 686-756), for the V1 row of the
version table.  The header read succeeds when the file holds at least the
header bytes; the version stamp is matched byte-exactly.  (The `"0002"` row
delegates to `v2_verify`, whose bitmap CRC comes from libchecksum.c which is
not under src/; no claim below exercises it, so the lookup is modelled for
the V1 stamp only, anything else reporting the unmatched-version error.)
On success: PC_VERIFIED is set, the cursor is reset and the zeroed
invalid-block buffer is allocated. -/
def partclone_verify (c : PcContext) (existingCf : Option CfState)
    (garbage : List Nat) : Nat × PcContext :=
  if !PCTX_OPEN c then (EINVAL, c)
  else if c.pc_hdr_size ≤ c.base.length then
    if c.pc_head_v1.version = VERSION_0001 then
      let r1 := v1_init c existingCf
      if r1.1 ≠ 0 then r1
      else
        let r2 := v1_verify r1.2 garbage
        if r2.1 ≠ 0 then r2
        else
          (0, { r2.2 with
            pc_flags := r2.2.pc_flags ||| PC_VERIFIED ||| PC_HAVE_IVBLOCK,
            pc_curblock := 0 })
    else (ENOENT, c)
  else ( EIO, c)

/-- Function `partclone_seek(rp, blockno)` (lines 779-794): requires a
read-ready context and `blockno <= totalblock`; on success of the
version-specific seek, the cursor moves. -/
def partclone_seek (c : PcContext) (blockno : Nat) : Nat × PcContext :=
  if PCTX_READREADY c && decide (blockno ≤ c.pc_head.totalblock) then
    let r := v1_seek c blockno
    if r.1 = 0 then (0, { r.2 with pc_curblock := blockno }) else r
  else (EINVAL, c)

/-- Loop of `partclone_readblocks`: `error` starts as EINVAL and is
overwritten by every `version_readblock` call; the cursor advances after
each successful block; the first failure aborts the batch.  The collected
list holds the buffers of the successful blocks, in block order. -/
def readblocksLoop : Nat → Nat → PcContext → Option (Nat × List (List Nat) × PcContext)
  | 0, err, c => some (err, [], c)
  | n + 1, _, c =>
    match v1_readblock c with
    | none => none
    | some (e, buf, c1) =>
      if e ≠ 0 then some (e, [], c1)
      else
        match readblocksLoop n 0 { c1 with pc_curblock := c1.pc_curblock + 1 } with
        | none => none
        | some (e2, bufs, c2) => some (e2, buf :: bufs, c2)

/-- Function `partclone_readblocks(rp, buffer, nblocks)` (lines 809-831). -/
def partclone_readblocks (c : PcContext) (nblocks : Nat) :
    Option (Nat × List (List Nat) × PcContext) :=
  if PCTX_READREADY c then readblocksLoop nblocks EINVAL c
  else some (EINVAL, [], c)

/-- Loop of `partclone_writeblocks`, consuming successive `block_size`
slices of the caller's buffer. -/
def writeblocksLoop : Nat → Nat → List (List Nat) → PcContext → Nat × PcContext
  | 0, err, _, c => (err, c)
  | n + 1, _, bufs, c =>
    let r := v1_writeblock c (bufs.headD [])
    if r.1 ≠ 0 then r
    else writeblocksLoop n 0 bufs.tail { r.2 with pc_curblock := r.2.pc_curblock + 1 }

/-- Function `partclone_writeblocks(rp, buffer, nblocks)` (lines 846-869). -/
def partclone_writeblocks (c : PcContext) (bufs : List (List Nat)) (nblocks : Nat) :
    Nat × PcContext :=
  if PCTX_WRITEABLE c then writeblocksLoop nblocks EINVAL bufs c
  else (EINVAL, c)

/-! ## Concrete contexts used by counterexamples, failing-input evaluations
and witnesses -/

/-- Flag word of a read-ready context that also has its version-dependent
handle (the state every successful verify produces, minus the bookkeeping
bits that do not matter to reads). -/
def rrFlags : Nat :=
  PC_VALID ||| PC_OPEN ||| PC_VERIFIED ||| PC_HEAD_VALID |||
    PC_VERSION_INIT ||| PC_HAVE_VERDEP

/-- Verified V1 context over usage map `[2, 1]` (an anomalous byte 2 before
a used block), `block_size = 1`, the sumcount precomputed by the source
(`[0]`). -/
def C1ctx : PcContext := {
  pc_flags := rrFlags,
  pc_head := { block_size := 1, totalblock := 2, checksum_size := 4,
               device_size := 2, blocks_per_checksum := 1, head_size := 100 },
  pc_head_v1 := ⟨IMAGE_MAGIC, VERSION_0001, 1, 2, 2⟩,
  pc_hdr_size := 0,
  pc_curblock := 0,
  pc_omode := 1,
  v1 := { v1_bitmap := [2, 1], v1_sumcount := [0], v1_nvbcount := 0,
          v1_bitmap_factor := 10 },
  pc_cf_handle := none,
  pc_has_cf_path := false,
  base := [] }

/-- Verified V1 context over the single-block usage map `[2]` (anomalous
byte), `block_size = 2`, `head_size = 0`, base file `[9, 9, 0, 0]`. -/
def C2ctx : PcContext := {
  pc_flags := rrFlags,
  pc_head := { block_size := 2, totalblock := 1, checksum_size := 4,
               device_size := 2, blocks_per_checksum := 1, head_size := 0 },
  pc_head_v1 := ⟨IMAGE_MAGIC, VERSION_0001, 2, 1, 2⟩,
  pc_hdr_size := 0,
  pc_curblock := 0,
  pc_omode := 1,
  v1 := { v1_bitmap := [2], v1_sumcount := [0], v1_nvbcount := 0,
          v1_bitmap_factor := 10 },
  pc_cf_handle := none,
  pc_has_cf_path := false,
  base := [9, 9, 0, 0] }

/-- Bytes of the clobbered trailing magic "BiTmAgIx". -/
def badmagic : List Nat := "BiTmAgIx".toList.map Char.toNat

/-- Freshly opened context over a V1 image that is well formed except that
its trailing 8-byte magic reads "BiTmAgIx": one block of size 1, usage map
`[1]`. -/
def C3ctx : PcContext := {
  pc_flags := PC_VALID ||| PC_OPEN ||| PC_HAVE_PATH,
  pc_head := ⟨0, 0, 0, 0, 0, 0⟩,
  pc_head_v1 := ⟨IMAGE_MAGIC, VERSION_0001, 1, 1, 1⟩,
  pc_hdr_size := 0,
  pc_curblock := 0,
  pc_omode := 1,
  v1 := ⟨[], [], 0, 0⟩,
  pc_cf_handle := none,
  pc_has_cf_path := false,
  base := [1] ++ badmagic }

/-- Verified V1 context with two used blocks of size 4 but a base image that
is 10 bytes long: block 0 reads fine at offset 0, block 1 lives at offset 8
and its 4-byte read comes back short, error EIO. -/
def C4ctx : PcContext := {
  pc_flags := rrFlags,
  pc_head := { block_size := 4, totalblock := 2, checksum_size := 4,
               device_size := 8, blocks_per_checksum := 1, head_size := 0 },
  pc_head_v1 := ⟨IMAGE_MAGIC, VERSION_0001, 4, 2, 8⟩,
  pc_hdr_size := 0,
  pc_curblock := 0,
  pc_omode := 1,
  v1 := { v1_bitmap := [1, 1], v1_sumcount := [0], v1_nvbcount := 0,
          v1_bitmap_factor := 10 },
  pc_cf_handle := none,
  pc_has_cf_path := false,
  base := [1, 2, 3, 4, 5, 6, 7, 8, 9, 10] }

/-- Context state after the failing two-block read on `C4ctx`: one block
succeeded (cursor 1, walking count bumped twice - once for the successful
block and once on the short read). -/
def C4after : PcContext := { C4ctx with
  pc_curblock := 1,
  v1 := { v1_bitmap := [1, 1], v1_sumcount := [0], v1_nvbcount := 2,
          v1_bitmap_factor := 10 } }

/-- Freshly opened context over a well-formed V1 image with
`totalblock = 0`: the file is just the (empty) usage map followed by the
correct trailing magic.  `totalblock` is a multiple of `2^factor`, so the
loop of `precalculate_sumcount` never writes the last (only) sumcount
entry. -/
def C5ctx : PcContext := {
  pc_flags := PC_VALID ||| PC_OPEN ||| PC_HAVE_PATH,
  pc_head := ⟨0, 0, 0, 0, 0, 0⟩,
  pc_head_v1 := ⟨IMAGE_MAGIC, VERSION_0001, 4, 0, 0⟩,
  pc_hdr_size := 0,
  pc_curblock := 0,
  pc_omode := 1,
  v1 := ⟨[], [], 0, 0⟩,
  pc_cf_handle := none,
  pc_has_cf_path := false,
  base := cmagicstr }

/-- Writeable verified V1 context (no change file yet), one block of size 1,
usage map `[0]` (the base image holds nothing for block 0). -/
def C6ctx : PcContext := {
  pc_flags := rrFlags,
  pc_head := { block_size := 1, totalblock := 1, checksum_size := 4,
               device_size := 1, blocks_per_checksum := 1, head_size := 0 },
  pc_head_v1 := ⟨IMAGE_MAGIC, VERSION_0001, 1, 1, 1⟩,
  pc_hdr_size := 0,
  pc_curblock := 0,
  pc_omode := 2,
  v1 := { v1_bitmap := [0], v1_sumcount := [0], v1_nvbcount := 0,
          v1_bitmap_factor := 10 },
  pc_cf_handle := none,
  pc_has_cf_path := false,
  base := [] }

/-- Verified V1 context with a single used block, used to exercise the
EOF cursor `totalblock = 1`. -/
def C7ctx : PcContext := {
  pc_flags := rrFlags,
  pc_head := { block_size := 1, totalblock := 1, checksum_size := 4,
               device_size := 1, blocks_per_checksum := 1, head_size := 0 },
  pc_head_v1 := ⟨IMAGE_MAGIC, VERSION_0001, 1, 1, 1⟩,
  pc_hdr_size := 0,
  pc_curblock := 0,
  pc_omode := 1,
  v1 := { v1_bitmap := [1], v1_sumcount := [0], v1_nvbcount := 0,
          v1_bitmap_factor := 10 },
  pc_cf_handle := none,
  pc_has_cf_path := false,
  base := [7] }

/-- Writeable verified V1 context with one used block of size 1 and base
file `[3]`, used to instantiate the frame theorem. -/
def C9ctx : PcContext := {
  pc_flags := rrFlags,
  pc_head := { block_size := 1, totalblock := 1, checksum_size := 4,
               device_size := 1, blocks_per_checksum := 1, head_size := 0 },
  pc_head_v1 := ⟨IMAGE_MAGIC, VERSION_0001, 1, 1, 1⟩,
  pc_hdr_size := 0,
  pc_curblock := 0,
  pc_omode := 2,
  v1 := { v1_bitmap := [1], v1_sumcount := [0], v1_nvbcount := 0,
          v1_bitmap_factor := 10 },
  pc_cf_handle := none,
  pc_has_cf_path := false,
  base := [3] }

/-- Read-ready context used to witness the zero-block-batch claim. -/
def C10ctx : PcContext := C9ctx

/-- Verified V1 context over usage map `[1, 0, 1, 1]` (four blocks, factor
10), used to instantiate the sumcount boundary theorem. -/
def C5wctx : PcContext := {
  pc_flags := rrFlags,
  pc_head := { block_size := 1, totalblock := 4, checksum_size := 4,
               device_size := 4, blocks_per_checksum := 1, head_size := 0 },
  pc_head_v1 := ⟨IMAGE_MAGIC, VERSION_0001, 1, 4, 4⟩,
  pc_hdr_size := 0,
  pc_curblock := 0,
  pc_omode := 1,
  v1 := { v1_bitmap := [1, 0, 1, 1], v1_sumcount := [], v1_nvbcount := 0,
          v1_bitmap_factor := 10 },
  pc_cf_handle := none,
  pc_has_cf_path := false,
  base := [] }

end Partclone

namespace Partclone

/-! ## Theorems -/

/-- C8: the bug-compatible V1 CRC-32 of "ABCD" equals that of "AAAA" for
every initial CRC value: the loop reads `buf[0]` on every iteration, so only
the first byte (0x41 in both buffers) ever enters the computation. -/
theorem C8_bugcompat_crc_first_byte_only (crc : Nat) :
    v1_crc32 v1_crc_tab32 crc [0x41, 0x42, 0x43, 0x44] 4 =
      v1_crc32 v1_crc_tab32 crc [0x41, 0x41, 0x41, 0x41] 4 := by
  rfl

/-- C1: evaluation of the code at the failing input.  On the verified V1
image with usage map `[2, 1]` (sumcount `[0]`, exactly what
`precalculate_sumcount` produces, since only bytes equal to 1 are counted
there), `seek(1)` sets the walking count `v1_nvbcount` to 1, because
`v1_seek` counts the anomalous byte 2 as used; the claim's
`N = #{i < 1 | usage_map[i] == 1}` is 0, and the physical offset the engine
will use, `rblock2offset(nvbcount)`, differs from the claim's
`head_size + N*block_size + (N/blocks_per_checksum)*checksum_size`. -/
theorem C1_seek_counts_anomalous_bytes :
    precalcAux [2, 1] 10 2 0 0 [5] = [0] ∧
    (partclone_seek C1ctx 1).1 = 0 ∧
    (partclone_seek C1ctx 1).2.v1.v1_nvbcount = 1 ∧
    usedCount [2, 1] 1 = 0 ∧
    rblock2offset C1ctx.pc_head ((partclone_seek C1ctx 1).2.v1.v1_nvbcount) ≠
      C1ctx.pc_head.head_size + usedCount [2, 1] 1 * C1ctx.pc_head.block_size +
        usedCount [2, 1] 1 / C1ctx.pc_head.blocks_per_checksum *
          C1ctx.pc_head.checksum_size := by
  refine ⟨by decide, by decide, by decide, by decide, by decide⟩

/-- C2: evaluation of the code at the failing input.  On the verified V1
context whose usage map holds the anomalous byte 2 for block 0 (no change
file), `v1_readblock` takes the used-block branch - it returns the stored
bytes `[9, 9]` read from the base image, not the `block_size` zero bytes the
claim requires for every map value other than 1. -/
theorem C2_anomalous_byte_read_not_zero :
    C2ctx.v1.v1_bitmap.getD 0 0 = 2 ∧
    (partclone_readblocks C2ctx 1).map (fun r => (r.1, r.2.1)) =
      some (0, [[9, 9]]) ∧
    ([9, 9] : List Nat) ≠ List.replicate C2ctx.pc_head.block_size 0 := by
  refine ⟨by decide, by decide, by decide⟩

/-- C7: evaluation of the code at the failing input.  `seek(totalblock)`
(here `totalblock = 1`) succeeds and moves the cursor to the EOF position,
exactly as the claim says; but a subsequent one-block read evaluates
`v1_bitmap[totalblock]`, one byte past the end of the allocated usage map -
the out-of-bounds access (`none` in this embedding) the claim asserts never
happens. -/
theorem C7_eof_read_indexes_map_out_of_bounds :
    (partclone_seek C7ctx 1).1 = 0 ∧
    (partclone_seek C7ctx 1).2.pc_curblock = C7ctx.pc_head.totalblock ∧
    partclone_readblocks (partclone_seek C7ctx 1).2 1 = none := by
  refine ⟨by decide, by decide, rfl⟩

/-- C10: a zero-block batch never succeeds: whatever the context,
`partclone_readblocks` with `nblocks = 0` returns EINVAL (the loop body
never overwrites the initial error), and so does `partclone_writeblocks`;
EINVAL is not the success code. -/
theorem C10_zero_block_batch_einval (c : PcContext) (bufs : List (List Nat)) :
    partclone_readblocks c 0 = some (EINVAL, [], c) ∧
    partclone_writeblocks c bufs 0 = (EINVAL, c) ∧ EINVAL ≠ 0 := by
  refine ⟨?_, ?_, by decide⟩
  · unfold partclone_readblocks
    split <;> rfl
  · unfold partclone_writeblocks
    split <;> rfl

/-- Bits set in `m` stay set after OR-ing more bits onto `x`. -/
theorem land_lor_superset (x y m : Nat) (h : x &&& m = m) :
    (x ||| y) &&& m = m := by
  apply Nat.eq_of_testBit_eq
  intro i
  have hx := congrArg (fun t => Nat.testBit t i) h
  simp only [Nat.testBit_land, Nat.testBit_lor] at hx ⊢
  cases hm : Nat.testBit m i <;> cases hb : Nat.testBit x i <;> simp_all

/-- Masks included in a satisfied mask are satisfied. -/
theorem land_subset_trans (x m m' : Nat) (h : x &&& m = m)
    (hsub : m' &&& m = m') : x &&& m' = m' := by
  apply Nat.eq_of_testBit_eq
  intro i
  have hx := congrArg (fun t => Nat.testBit t i) h
  have hs := congrArg (fun t => Nat.testBit t i) hsub
  simp only [Nat.testBit_land] at hx hs ⊢
  cases h1 : Nat.testBit m' i <;> cases h2 : Nat.testBit m i <;>
    cases h3 : Nat.testBit x i <;> simp_all

/-- A satisfied flag test stays satisfied after OR-ing more flags in. -/
theorem PCTX_FLAGS_SET_lor (x y m : Nat) (h : PCTX_FLAGS_SET x m = true) :
    PCTX_FLAGS_SET (x ||| y) m = true := by
  simp only [PCTX_FLAGS_SET, beq_iff_eq] at h ⊢
  exact land_lor_superset _ _ _ h

/-- A flag test weakens to any submask. -/
theorem PCTX_FLAGS_SET_mono (x m m' : Nat) (h : PCTX_FLAGS_SET x m = true)
    (hsub : (m' ||| PC_VALID) &&& (m ||| PC_VALID) = (m' ||| PC_VALID)) :
    PCTX_FLAGS_SET x m' = true := by
  simp only [PCTX_FLAGS_SET, beq_iff_eq] at h ⊢
  exact land_subset_trans _ _ _ h hsub

/-- OR-ing a mask onto a valid flag word satisfies that mask's test. -/
theorem PCTX_FLAGS_SET_or_self (x m : Nat) (hv : PCTX_FLAGS_SET x 0 = true) :
    PCTX_FLAGS_SET (x ||| m) m = true := by
  simp only [PCTX_FLAGS_SET, beq_iff_eq, Nat.zero_or] at hv ⊢
  apply Nat.eq_of_testBit_eq
  intro i
  have hx := congrArg (fun t => Nat.testBit t i) hv
  simp only [Nat.testBit_land, Nat.testBit_lor] at hx ⊢
  cases h1 : Nat.testBit m i <;> cases h2 : Nat.testBit PC_VALID i <;>
    cases h3 : Nat.testBit x i <;> simp_all

/-- The usage-map branch of a read changes neither the base file, nor the
cursor, the resolved header, the flags or the change-file handle. -/
theorem v1_readblock_miss_pres (c : PcContext) (r : Nat × List Nat × PcContext)
    (h : v1_readblock_miss c = some r) :
    r.2.2.base = c.base ∧ r.2.2.pc_curblock = c.pc_curblock ∧
    r.2.2.pc_head = c.pc_head ∧ r.2.2.pc_flags = c.pc_flags := by
  unfold v1_readblock_miss at h
  split at h
  · exact Option.noConfusion h
  · split at h
    · simp only at h
      split at h <;> (cases h; exact ⟨rfl, rfl, rfl, rfl⟩)
    · cases h; exact ⟨rfl, rfl, rfl, rfl⟩

/-- A single-block read changes neither the base file, nor the cursor, the
resolved header or the flags. -/
theorem v1_readblock_pres (c : PcContext) (r : Nat × List Nat × PcContext)
    (h : v1_readblock c = some r) :
    r.2.2.base = c.base ∧ r.2.2.pc_curblock = c.pc_curblock ∧
    r.2.2.pc_head = c.pc_head ∧ r.2.2.pc_flags = c.pc_flags := by
  unfold v1_readblock at h
  split at h
  · simp only at h
    split at h
    · cases h; exact ⟨rfl, rfl, rfl, rfl⟩
    · have hp := v1_readblock_miss_pres _ _ h
      exact ⟨hp.1, hp.2.1, hp.2.2.1, hp.2.2.2⟩
  · exact v1_readblock_miss_pres _ _ h

/-- Loop invariant of `partclone_readblocks`: the base file and header are
untouched, the cursor advances by exactly the number of successfully read
blocks, and that number is at most the requested count. -/
theorem readblocksLoop_spec :
    ∀ (n err : Nat) (c : PcContext) (r : Nat × List (List Nat) × PcContext),
      readblocksLoop n err c = some r →
      r.2.2.base = c.base ∧ r.2.2.pc_head = c.pc_head ∧
      r.2.2.pc_curblock = c.pc_curblock + r.2.1.length ∧
      r.2.1.length ≤ n := by
  intro n
  induction n with
  | zero =>
    intro err c r h
    cases h
    exact ⟨rfl, rfl, by simp, by simp⟩
  | succ m ih =>
    intro err c r h
    unfold readblocksLoop at h
    split at h
    · exact Option.noConfusion h
    · rename_i e buf c1 heq
      split at h
      · cases h
        obtain ⟨hb, hc, hh, _⟩ := v1_readblock_pres _ _ heq
        exact ⟨hb, hh, hc, by simp⟩
      · split at h
        · exact Option.noConfusion h
        · rename_i e2 bufs c2 heq2
          cases h
          have hp := v1_readblock_pres _ _ heq
          have hi := ih 0 _ _ heq2
          have hb1 : c1.base = c.base := hp.1
          have hc1 : c1.pc_curblock = c.pc_curblock := hp.2.1
          have hh1 : c1.pc_head = c.pc_head := hp.2.2.1
          have hb2 : c2.base = c1.base := hi.1
          have hh2 : c2.pc_head = c1.pc_head := hi.2.1
          have hc2 : c2.pc_curblock = c1.pc_curblock + 1 + bufs.length := hi.2.2.1
          have hl2 : bufs.length ≤ m := hi.2.2.2
          refine ⟨hb2.trans hb1, hh2.trans hh1, ?_, ?_⟩
          · show c2.pc_curblock = c.pc_curblock + (buf :: bufs).length
            simp only [List.length_cons]
            omega
          · show (buf :: bufs).length ≤ m + 1
            simp only [List.length_cons]
            omega

/-- C4 (amended): when a multi-block read fails partway, the call returns the
failing block's error and `current_block` ends at the pre-op value plus the
number of blocks that succeeded - i.e. at the failed block itself, not past
it, and not back at the pre-op value. -/
theorem C4_partial_failure_cursor (c : PcContext) (n e : Nat)
    (bufs : List (List Nat)) (c' : PcContext)
    (h : partclone_readblocks c n = some (e, bufs, c')) (he : e ≠ 0) :
    c'.pc_curblock = c.pc_curblock + bufs.length ∧ bufs.length ≤ n := by
  unfold partclone_readblocks at h
  split at h
  · have hs := readblocksLoop_spec n EINVAL c _ h
    exact ⟨hs.2.2.1, hs.2.2.2⟩
  · cases h; simp

/-- C4 witness: the amended cursor law instantiated on the truncated
two-block image, where the second block fails with EIO. -/
theorem C4_partial_failure_cursor_witness :
    partclone_readblocks C4ctx 2 = some ( EIO, [[1, 2, 3, 4]], C4after) ∧
    EIO ≠ 0 ∧
    C4after.pc_curblock = C4ctx.pc_curblock + [[1, 2, 3, 4]].length ∧
    ([[1, 2, 3, 4]] : List (List Nat)).length ≤ 2 := by
  have h : partclone_readblocks C4ctx 2 = some ( EIO, [[1, 2, 3, 4]], C4after) := by
    rfl
  exact ⟨h, by decide,
    (C4_partial_failure_cursor C4ctx 2 EIO [[1, 2, 3, 4]] C4after h (by decide)).1,
    by decide⟩

/-- Seeking changes neither the base file nor the resolved header. -/
theorem v1_seek_pres (c : PcContext) (b : Nat) :
    (v1_seek c b).2.base = c.base ∧ (v1_seek c b).2.pc_head = c.pc_head := by
  unfold v1_seek
  split
  · exact ⟨rfl, rfl⟩
  · simp only
    split <;> exact ⟨rfl, rfl⟩

/-- The public seek never touches the base image bytes. -/
theorem partclone_seek_base (c : PcContext) (b : Nat) :
    (partclone_seek c b).2.base = c.base := by
  unfold partclone_seek
  split
  · simp only
    split
    · exact (v1_seek_pres c b).1
    · exact (v1_seek_pres c b).1
  · rfl

/-- A single-block write changes neither the base file, nor the cursor, nor
the resolved header. -/
theorem v1_writeblock_pres (c : PcContext) (buf : List Nat) :
    (v1_writeblock c buf).2.base = c.base ∧
    (v1_writeblock c buf).2.pc_curblock = c.pc_curblock ∧
    (v1_writeblock c buf).2.pc_head = c.pc_head := by
  unfold v1_writeblock
  split
  · exact ⟨rfl, rfl, rfl⟩
  · simp only
    split <;> split <;> exact ⟨rfl, rfl, rfl⟩

/-- The write loop never touches the base image bytes. -/
theorem writeblocksLoop_base :
    ∀ (n err : Nat) (bufs : List (List Nat)) (c : PcContext),
      (writeblocksLoop n err bufs c).2.base = c.base := by
  intro n
  induction n with
  | zero => intro err bufs c; rfl
  | succ m ih =>
    intro err bufs c
    unfold writeblocksLoop
    simp only
    split
    · exact (v1_writeblock_pres c (bufs.headD [])).1
    · rw [ih]
      exact (v1_writeblock_pres c (bufs.headD [])).1

/-- C9: the engine never writes the base image.  `partclone_open` passes the
literal SYSDEP_OPEN_RO to the backend for every requested open mode, and
seek, read-blocks and write-blocks all leave the base image bytes unchanged
(writes land exclusively in the change-file overlay). -/
theorem C9_base_image_never_written (base' : List Nat) (hdr : V1Header)
    (hs : Nat) (hcf : Bool) (omode : Nat) (c : PcContext) (bno n : Nat)
    (bufs : List (List Nat)) :
    (partclone_open base' hdr hs hcf omode).backend_mode = SYSDEP_OPEN_RO ∧
    (partclone_seek c bno).2.base = c.base ∧
    (∀ r, partclone_readblocks c n = some r → r.2.2.base = c.base) ∧
    (partclone_writeblocks c bufs n).2.base = c.base := by
  refine ⟨rfl, partclone_seek_base c bno, ?_, ?_⟩
  · intro r h
    unfold partclone_readblocks at h
    split at h
    · exact (readblocksLoop_spec n EINVAL c r h).1
    · cases h; rfl
  · unfold partclone_writeblocks
    split
    · exact writeblocksLoop_base n EINVAL bufs c
    · rfl

/-- C9 witness: the frame property instantiated on a concrete writeable
context, including a read that actually returns data. -/
theorem C9_base_image_never_written_witness :
    (partclone_open [3] ⟨[], [], 0, 0, 0⟩ 0 false SYSDEP_OPEN_RWCREAT).backend_mode =
      SYSDEP_OPEN_RO ∧
    (partclone_seek C9ctx 0).2.base = C9ctx.base ∧
    (∃ r, partclone_readblocks C9ctx 1 = some r ∧ r.2.2.base = C9ctx.base) ∧
    (partclone_writeblocks C9ctx [[9]] 1).2.base = C9ctx.base := by
  obtain ⟨h1, h2, h3, h4⟩ :=
    C9_base_image_never_written [3] ⟨[], [], 0, 0, 0⟩ 0 false
      SYSDEP_OPEN_RWCREAT C9ctx 0 1 [[9]]
  exact ⟨h1, h2, ⟨_, rfl, h3 _ rfl⟩, h4⟩

/-- C3 counterexample: on a well-formed V1 image whose trailing magic reads
"BiTmAgIx", setting tolerant mode and then verifying still fails with
EINVAL - the claim's "verify succeeds and the context becomes VERIFIED"
is false (no code path consults PC_TOLERANT). -/
theorem C3_counterexample_tolerant_verify_fails :
    PCTX_TOLERANT (partclone_tolerant_mode C3ctx) = true ∧
    (partclone_verify (partclone_tolerant_mode C3ctx) none [5]).1 = EINVAL ∧
    EINVAL ≠ 0 := by
  refine ⟨by decide, by decide, by decide⟩

/-- C4 counterexample: on the truncated two-block image, a two-block read
fails on the second block with EIO after one block succeeded, and
`pc_curblock` ends at 1, not at its pre-call value 0 - refuting "the cursor
is left at its pre-op value". -/
theorem C4_counterexample_cursor_advances :
    C4ctx.pc_curblock = 0 ∧
    (partclone_readblocks C4ctx 2).map
        (fun r => (r.1, r.2.1, r.2.2.pc_curblock)) =
      some ( EIO, [[1, 2, 3, 4]], 1) ∧
    EIO ≠ 0 ∧ (1 : Nat) ≠ 0 := by
  refine ⟨by decide, by decide, by decide, by decide⟩

/-- Entries at boundaries strictly below the current loop index are never
rewritten by the remaining iterations of the sumcount loop. -/
theorem precalcAux_getD_of_lt (bm : List Nat) (f : Nat) :
    ∀ (rem i nset : Nat) (arr : List Nat) (k : Nat), k * 2 ^ f < i →
      (precalcAux bm f rem i nset arr).getD k 0 = arr.getD k 0 := by
  intro rem
  induction rem with
  | zero => intro i nset arr k h; rfl
  | succ m ih =>
    intro i nset arr k h
    simp only [precalcAux]
    rw [ih (i + 1) _ _ k (Nat.lt_succ_of_lt h)]
    split
    · rename_i hmod
      have hpow : 0 < 2 ^ f := Nat.pos_pow_of_pos f (by decide)
      have hne : i >>> f ≠ k := by
        rw [Nat.shiftRight_eq_div_pow]
        have hdvd : i = i / 2 ^ f * 2 ^ f :=
          (Nat.div_mul_cancel (Nat.dvd_of_mod_eq_zero hmod)).symm
        have hk : k < i / 2 ^ f := by
          have : k * 2 ^ f < i / 2 ^ f * 2 ^ f := by omega
          exact Nat.lt_of_mul_lt_mul_right this
        omega
      rw [List.getD_eq_getElem?_getD, List.getD_eq_getElem?_getD,
        List.getElem?_set_ne hne]
    · rfl

/-- Correctness of the sumcount loop at every stride boundary it visits:
starting at index `i` with the correct running count, the entry for any
boundary in `[i, i + rem)` ends up holding the number of bytes equal to 1
before that boundary. -/
theorem precalcAux_getD_correct (bm : List Nat) (f : Nat) :
    ∀ (rem i nset : Nat) (arr : List Nat) (k : Nat),
      i ≤ k * 2 ^ f → k * 2 ^ f < i + rem → k < arr.length →
      nset = usedCount bm i →
      (precalcAux bm f rem i nset arr).getD k 0 =
        usedCount bm (k * 2 ^ f) := by
  intro rem
  induction rem with
  | zero => intro i nset arr k h1 h2 _ _; omega
  | succ m ih =>
    intro i nset arr k h1 h2 hlen h4
    simp only [precalcAux]
    rcases Nat.eq_or_lt_of_le h1 with heq | hlt
    · -- this iteration writes the entry for boundary k
      have hpow : 0 < 2 ^ f := Nat.pos_pow_of_pos f (by decide)
      have hmod : i % 2 ^ f = 0 := by
        rw [heq]
        exact Nat.mul_mod_left k (2 ^ f)
      have hsh : i >>> f = k := by
        rw [Nat.shiftRight_eq_div_pow, heq, Nat.mul_div_cancel _ hpow]
      have hk1 : k * 2 ^ f < i + 1 := by omega
      rw [precalcAux_getD_of_lt bm f m (i + 1) _ _ k hk1]
      rw [if_pos hmod, hsh]
      rw [List.getD_eq_getElem?_getD, List.getElem?_set_self hlen]
      rw [h4, heq]
      rfl
    · exact ih (i + 1) _ _ k hlt (by omega)
        (by split
            · rw [List.length_set]; exact hlen
            · exact hlen)
        (by rw [h4]
            simp only [usedCount]
            split <;> simp)

/-- On a valid context, `v1_init` succeeds, only OR-s flag bits in, and
leaves the base file, the parsed header and the header size unchanged. -/
theorem v1_init_pres (c : PcContext) (ecf : Option CfState)
    (h : PCTX_VALID c = true) :
    (v1_init c ecf).1 = 0 ∧
    (∃ k, (v1_init c ecf).2.pc_flags = c.pc_flags ||| k) ∧
    (v1_init c ecf).2.base = c.base ∧
    (v1_init c ecf).2.pc_head_v1 = c.pc_head_v1 ∧
    (v1_init c ecf).2.pc_hdr_size = c.pc_hdr_size := by
  unfold v1_init
  rw [h]
  simp only [Bool.not_true, Bool.false_eq_true, if_false]
  split
  · split
    · exact ⟨rfl, ⟨PC_HAVE_VERDEP ||| (PC_VERSION_INIT ||| PC_CF_OPEN),
        by simp [Nat.lor_assoc]⟩, rfl, rfl, rfl⟩
    · exact ⟨rfl, ⟨PC_HAVE_VERDEP ||| PC_VERSION_INIT,
        by simp [Nat.lor_assoc]⟩, rfl, rfl, rfl⟩
  · split
    · exact ⟨rfl, ⟨PC_HAVE_VERDEP ||| (PC_VERSION_INIT ||| PC_READ_ONLY),
        by simp [Nat.lor_assoc]⟩, rfl, rfl, rfl⟩
    · exact ⟨rfl, ⟨PC_HAVE_VERDEP ||| PC_VERSION_INIT,
        by simp [Nat.lor_assoc]⟩, rfl, rfl, rfl⟩

/-- On an open context whose header magic matches but whose trailing 8 bytes
differ from "BiTmAgIc", `v1_verify` returns EINVAL, with no regard to the
tolerant flag (no branch of it consults PC_TOLERANT). -/
theorem v1_verify_badmagic (c : PcContext) (g ms : List Nat)
    (hopen : PCTX_OPEN c = true)
    (hmagic : c.pc_head_v1.magic = IMAGE_MAGIC)
    (hbm : c.pc_hdr_size + c.pc_head_v1.totalblock ≤ c.base.length)
    (hms : fileRead c.base (c.pc_hdr_size + c.pc_head_v1.totalblock) MAGIC_LEN =
      some ms)
    (hbad : ms ≠ cmagicstr) :
    (v1_verify c g).1 = EINVAL := by
  unfold v1_verify
  rw [hopen]
  rw [if_neg (show ¬((!true) = true) by decide)]
  rw [if_neg (by simp [hmagic])]
  simp only
  have h1 : fileRead c.base c.pc_hdr_size c.pc_head_v1.totalblock =
      some ((c.base.drop c.pc_hdr_size).take c.pc_head_v1.totalblock) := by
    unfold fileRead
    rw [if_pos hbm]
  rw [h1]
  simp only
  rw [hms]
  simp only
  rw [if_neg hbad]

/-- C3 (amended): `partclone_tolerant_mode` records PC_TOLERANT, but V1
verification never consults it: on a V1 image that is well formed except
that its trailing 8-byte magic differs from "BiTmAgIc", verify still fails
with EINVAL (invalid-format) in tolerant mode; the context does not become
verified. -/
theorem C3_tolerant_mode_has_no_effect (c : PcContext) (ecf : Option CfState)
    (g ms : List Nat)
    (hopen : PCTX_OPEN c = true)
    (hmagic : c.pc_head_v1.magic = IMAGE_MAGIC)
    (hver : c.pc_head_v1.version = VERSION_0001)
    (hhdr : c.pc_hdr_size ≤ c.base.length)
    (hbm : c.pc_hdr_size + c.pc_head_v1.totalblock ≤ c.base.length)
    (hms : fileRead c.base (c.pc_hdr_size + c.pc_head_v1.totalblock) MAGIC_LEN =
      some ms)
    (hbad : ms ≠ cmagicstr) :
    PCTX_TOLERANT (partclone_tolerant_mode c) = true ∧
    (partclone_verify (partclone_tolerant_mode c) ecf g).1 = EINVAL := by
  have hvalid : PCTX_FLAGS_SET c.pc_flags 0 = true :=
    PCTX_FLAGS_SET_mono c.pc_flags PC_OPEN 0 hopen (by decide)
  have htol : partclone_tolerant_mode c =
      { c with pc_flags := c.pc_flags ||| PC_TOLERANT } := by
    unfold partclone_tolerant_mode
    rw [hopen]
    rfl
  constructor
  · rw [htol]
    exact PCTX_FLAGS_SET_or_self c.pc_flags PC_TOLERANT hvalid
  · rw [htol]
    set cT : PcContext := { c with pc_flags := c.pc_flags ||| PC_TOLERANT }
      with hcT
    have hopenT : PCTX_OPEN cT = true :=
      PCTX_FLAGS_SET_lor c.pc_flags PC_TOLERANT PC_OPEN hopen
    have hvalidT : PCTX_VALID cT = true :=
      PCTX_FLAGS_SET_lor c.pc_flags PC_TOLERANT 0 hvalid
    obtain ⟨hi0, ⟨k, hik⟩, hib, hih, his⟩ := v1_init_pres cT ecf hvalidT
    have hopenI : PCTX_OPEN (v1_init cT ecf).2 = true := by
      unfold PCTX_OPEN
      rw [hik]
      exact PCTX_FLAGS_SET_lor _ k PC_OPEN hopenT
    have hverify : (v1_verify (v1_init cT ecf).2 g).1 = EINVAL := by
      apply v1_verify_badmagic _ g ms hopenI
      · rw [hih]; exact hmagic
      · rw [his, hih, hib]; exact hbm
      · rw [his, hih, hib]; exact hms
      · exact hbad
    unfold partclone_verify
    rw [hopenT]
    rw [if_neg (show ¬((!true) = true) by decide)]
    rw [if_pos (show cT.pc_hdr_size ≤ cT.base.length from hhdr)]
    rw [if_pos (show cT.pc_head_v1.version = VERSION_0001 from hver)]
    simp only
    rw [if_neg (by simp [hi0])]
    rw [if_pos (by simp [hverify, EINVAL])]
    exact hverify

/-- C3 witness: the amended statement instantiated on the concrete clobbered
image. -/
theorem C3_tolerant_mode_has_no_effect_witness :
    PCTX_TOLERANT (partclone_tolerant_mode C3ctx) = true ∧
    (partclone_verify (partclone_tolerant_mode C3ctx) none [5]).1 = EINVAL :=
  C3_tolerant_mode_has_no_effect C3ctx none [5] badmagic (by decide)
    (by decide) (by decide) (by decide) (by decide) (by decide) (by decide)

/-- A single-block write succeeds on a context with its version handle,
leaves cursor and header alone, only OR-s flag bits in, and afterwards the
change-file overlay holds the written buffer at the current block. -/
theorem v1_writeblock_spec (c : PcContext) (buf : List Nat)
    (hvd : PCTX_HAVE_VERDEP c = true)
    (hcf : PCTX_WRITEREADY c = true → c.pc_cf_handle.isSome = true) :
    ∃ c' : PcContext,
      v1_writeblock c buf = (0, c') ∧
      c'.pc_curblock = c.pc_curblock ∧
      c'.pc_head = c.pc_head ∧
      (∃ k, c'.pc_flags = c.pc_flags ||| k) ∧
      (∃ cf, c'.pc_cf_handle = some cf ∧
        cf.blocks c.pc_curblock = some buf) := by
  unfold v1_writeblock
  rw [hvd, if_neg (show ¬((!true) = true) by decide)]
  by_cases hwr : PCTX_WRITEREADY c = true
  · obtain ⟨cf0, hcf0⟩ := Option.isSome_iff_exists.mp (hcf hwr)
    rw [hwr, if_neg (show ¬((!true) = true) by decide)]
    simp only
    rw [hcf0]
    simp only
    refine ⟨_, rfl, rfl, rfl, ⟨0, by simp⟩, ⟨_, rfl, ?_⟩⟩
    simp [cf_writeblock, cf_seek]
  · have hwrf : PCTX_WRITEREADY c = false := by
      cases h' : PCTX_WRITEREADY c
      · rfl
      · exact absurd h' hwr
    rw [hwrf, if_pos (show (!false) = true by decide)]
    simp only
    refine ⟨_, rfl, rfl, rfl,
      ⟨PC_HAVE_CF_PATH ||| (PC_HAVE_CFDEP ||| PC_CF_VERIFIED),
        by simp [Nat.lor_assoc]⟩,
      ⟨_, rfl, ?_⟩⟩
    simp [cf_writeblock, cf_seek, cfEmpty]

/-- C6: overlay shadowing.  On a writeable context, writing one block at the
current cursor `b` succeeds; re-seeking to `b` succeeds; and the following
one-block read returns exactly the written buffer - the read consults the
change-file overlay before the base image, whatever the base usage map says
about `b`. -/
theorem C6_overlay_shadowing (c : PcContext) (buf : List Nat)
    (hw : PCTX_WRITEABLE c = true)
    (hvd : PCTX_HAVE_VERDEP c = true)
    (hb : c.pc_curblock ≤ c.pc_head.totalblock)
    (hcf : PCTX_WRITEREADY c = true → c.pc_cf_handle.isSome = true) :
    (partclone_writeblocks c [buf] 1).1 = 0 ∧
    (partclone_seek (partclone_writeblocks c [buf] 1).2 c.pc_curblock).1 = 0 ∧
    (partclone_readblocks
        (partclone_seek (partclone_writeblocks c [buf] 1).2 c.pc_curblock).2
        1).map (fun r => (r.1, r.2.1)) = some (0, [buf]) := by
  have hrr : PCTX_READREADY c = true := by
    unfold PCTX_WRITEABLE at hw
    exact (Bool.and_eq_true _ _ |>.mp hw).2
  obtain ⟨c', hwb', hcur, hhead, ⟨k, hflags⟩, ⟨cf, hcfh, hcfb⟩⟩ :=
    v1_writeblock_spec c buf hvd hcf
  -- the one-block write batch
  have hwb : partclone_writeblocks c [buf] 1 =
      (0, { c' with pc_curblock := c'.pc_curblock + 1 }) := by
    unfold partclone_writeblocks
    rw [if_pos hw]
    unfold writeblocksLoop
    simp only [List.headD_cons]
    rw [hwb']
    simp only
    rw [if_neg (show ¬((0 : Nat) ≠ 0) by decide)]
    rfl
  rw [hwb]
  simp only
  refine ⟨by trivial, ?_⟩
  set c1 : PcContext := { c' with pc_curblock := c'.pc_curblock + 1 } with hc1
  have hflags1 : c1.pc_flags = c.pc_flags ||| k := hflags
  have hcfh1 : c1.pc_cf_handle = some cf := hcfh
  have hhead1 : c1.pc_head = c.pc_head := hhead
  have hrr1 : PCTX_READREADY c1 = true := by
    unfold PCTX_READREADY
    rw [hflags1]
    exact PCTX_FLAGS_SET_lor _ _ _ hrr
  have hvd1 : PCTX_HAVE_VERDEP c1 = true := by
    unfold PCTX_HAVE_VERDEP
    rw [hflags1]
    exact PCTX_FLAGS_SET_lor _ _ _ (by unfold PCTX_HAVE_VERDEP at hvd; exact hvd)
  -- the seek back to b
  obtain ⟨c2, hseek, hcur2, hcfh2, hflags2⟩ :
      ∃ c2, partclone_seek c1 c.pc_curblock = (0, c2) ∧
        c2.pc_curblock = c.pc_curblock ∧
        c2.pc_cf_handle = some (cf_seek cf c.pc_curblock) ∧
        c2.pc_flags = c1.pc_flags := by
    unfold partclone_seek
    rw [if_pos (by
      rw [Bool.and_eq_true]
      exact ⟨hrr1, by rw [hhead1]; simpa using hb⟩)]
    unfold v1_seek
    rw [hvd1, if_neg (show ¬((!true) = true) by decide)]
    simp only
    rw [hcfh1]
    simp only
    simp only [if_true]
    exact ⟨_, rfl, rfl, rfl, rfl⟩
  rw [hseek]
  simp only
  refine ⟨by trivial, ?_⟩
  -- the read back
  have hrr2 : PCTX_READREADY c2 = true := by
    unfold PCTX_READREADY
    rw [hflags2, hflags1]
    exact PCTX_FLAGS_SET_lor _ _ _ hrr
  have hread : ∃ c3, v1_readblock c2 = some (0, buf, c3) := by
    unfold v1_readblock
    rw [hcfh2]
    simp only
    have hhit : cf_readblock (cf_seek (cf_seek cf c.pc_curblock) c2.pc_curblock) =
        some buf := by
      unfold cf_readblock cf_seek
      simp only
      rw [hcur2]
      exact hcfb
    rw [hhit]
    exact ⟨_, rfl⟩
  obtain ⟨c3, hread⟩ := hread
  unfold partclone_readblocks
  rw [if_pos hrr2]
  unfold readblocksLoop
  rw [hread]
  simp only
  rw [if_neg (show ¬((0 : Nat) ≠ 0) by decide)]
  rfl

/-- C6 witness: the shadowing law instantiated on a concrete writeable
context with no change file yet and an unused base block. -/
theorem C6_overlay_shadowing_witness :
    (partclone_writeblocks C6ctx [[9]] 1).1 = 0 ∧
    (partclone_seek (partclone_writeblocks C6ctx [[9]] 1).2
        C6ctx.pc_curblock).1 = 0 ∧
    (partclone_readblocks
        (partclone_seek (partclone_writeblocks C6ctx [[9]] 1).2
          C6ctx.pc_curblock).2 1).map (fun r => (r.1, r.2.1)) =
      some (0, [[9]]) :=
  C6_overlay_shadowing C6ctx [9] (by decide) (by decide) (by decide)
    (fun h => absurd h (by decide))

/-- C5 counterexample: verify succeeds on a well-formed V1 image with
`totalblock = 0` (a multiple of the stride `2^10`), yet the sumcount entry
for the boundary `k = 0`, `k * 2^10 = 0 ≤ totalblock`, still holds the
uninitialized malloc contents (here 7), not the prefix count 0: the loop of
`precalculate_sumcount` only writes entries at boundaries strictly below
`totalblock`. -/
theorem C5_counterexample_last_entry_uninitialized :
    (partclone_verify C5ctx none [7]).1 = 0 ∧
    ((partclone_verify C5ctx none [7]).2.v1.v1_sumcount).getD 0 0 = 7 ∧
    usedCount (partclone_verify C5ctx none [7]).2.v1.v1_bitmap (0 * 2 ^ 10) = 0 ∧
    0 * 2 ^ 10 ≤ (partclone_verify C5ctx none [7]).2.pc_head.totalblock ∧
    (7 : Nat) ≠ 0 := by
  refine ⟨by decide, by decide, by decide, by decide, by decide⟩

/-- C5 (amended): after verify, every sumcount entry for a stride boundary
strictly below `totalblock` holds the number of map bytes equal to 1 before
that boundary, whatever the malloc'd array held initially (entries at
`k * 2^factor = totalblock`, when they exist, are never written and keep
their uninitialized contents). -/
theorem C5_sumcount_boundary_correct (c : PcContext) (g : List Nat) (k : Nat)
    (hg : g.length = (c.pc_head.totalblock >>> c.v1.v1_bitmap_factor) + 1)
    (hk : k * 2 ^ c.v1.v1_bitmap_factor < c.pc_head.totalblock) :
    ((precalculate_sumcount c g).2.v1.v1_sumcount).getD k 0 =
      usedCount c.v1.v1_bitmap (k * 2 ^ c.v1.v1_bitmap_factor) := by
  have hsum : (precalculate_sumcount c g).2.v1.v1_sumcount =
      precalcAux c.v1.v1_bitmap c.v1.v1_bitmap_factor
        c.pc_head.totalblock 0 0 g := by
    unfold precalculate_sumcount
    simp only
    split <;> rfl
  rw [hsum]
  apply precalcAux_getD_correct
  · exact Nat.zero_le _
  · simpa using hk
  · have hpow : 0 < 2 ^ c.v1.v1_bitmap_factor :=
      Nat.pos_pow_of_pos _ (by decide)
    have hdiv : k ≤ c.pc_head.totalblock / 2 ^ c.v1.v1_bitmap_factor :=
      (Nat.le_div_iff_mul_le hpow).mpr (Nat.le_of_lt hk)
    rw [hg, Nat.shiftRight_eq_div_pow]
    omega
  · rfl

/-- C5 witness: the boundary `k = 0` of a four-block verified map, with a
one-entry uninitialized array. -/
theorem C5_sumcount_boundary_correct_witness :
    ([9] : List Nat).length =
      (C5wctx.pc_head.totalblock >>> C5wctx.v1.v1_bitmap_factor) + 1 ∧
    0 * 2 ^ C5wctx.v1.v1_bitmap_factor < C5wctx.pc_head.totalblock ∧
    ((precalculate_sumcount C5wctx [9]).2.v1.v1_sumcount).getD 0 0 =
      usedCount C5wctx.v1.v1_bitmap (0 * 2 ^ C5wctx.v1.v1_bitmap_factor) :=
  ⟨by decide, by decide,
    C5_sumcount_boundary_correct C5wctx [9] 0 (by decide) (by decide)⟩

end Partclone
